import Mathlib

set_option autoImplicit false

/-!
Verification development for the LifeLineAI real-time duplex media session
controller (the `LiveTriage` component and its helpers).

The embedding below translates the relevant source functions into pure Lean
definitions.  Mutable refs and React state hooks become fields of an explicit
`SessionState` record; each asynchronous callback becomes a function from
state (and its inputs) to state, together with the list of observable effects
(outbound sends, playback scheduling) it produces.  Times on the audio clock
are rationals.  JavaScript exceptions inside the tool-call dispatch loop are
modelled with `Except`; the surrounding try/catch of `handleServerMessage`
is modelled by the caller of the loop discarding the error.
-/

/-- Nested `recommendedHospital` object of a triage status
(`src/types.ts`, `RecommendedHospital`).  The source passes it through
untyped (`fc.args.recommendedHospital as any`), so each field is optional. -/
structure HospitalModel where
  name : Option String
  address : Option String
  travelTime : Option String
deriving DecidableEq, Repr

/-- Arguments of one tool invocation.  In the source `fc.args` is a dynamic
record; a missing property reads as `undefined`, which we model with
`Option`. -/
structure ToolArgs where
  condition : Option String
  riskLevel : Option String
  immediateAction : Option String
  hospitalUrgency : Option String
  department : Option String
  contraindications : Option String
  reasoning : Option String
  recommendedHospital : Option HospitalModel
deriving DecidableEq, Repr

/-- One tool invocation from an inbound message
(an element of `message.toolCall.functionCalls`). -/
structure FunctionCall where
  id : String
  name : String
  args : ToolArgs
deriving DecidableEq, Repr

/-- The triage status record built in `handleServerMessage`
(src/unnamed/part_000 lines 407-418).  The wall-clock field `lastUpdated`
(`Date.now()`) is outside the model. -/
structure TriageStatusModel where
  condition : Option String
  riskLevel : Option String
  immediateAction : Option String
  hospitalUrgency : Option String
  department : Option String
  contraindications : Option String
  reasoning : Option String
  recommendedHospital : Option HospitalModel
  source : String
deriving DecidableEq, Repr

/-- Status record construction from the arguments of an `updateTriageStatus`
call (src/unnamed/part_000 lines 407-418): a field-by-field copy plus the
provenance marker. -/
def mkStatus (args : ToolArgs) : TriageStatusModel :=
  { condition := args.condition
    riskLevel := args.riskLevel
    immediateAction := args.immediateAction
    hospitalUrgency := args.hospitalUrgency
    department := args.department
    contraindications := args.contraindications
    reasoning := args.reasoning
    recommendedHospital := args.recommendedHospital
    source := "LIVE_OBSERVATION" }

/-- One `{id, name, response}` triple pushed onto `responses`
(src/unnamed/part_000 lines 428-432). -/
structure ToolResponseItem where
  id : String
  name : String
  response : String
deriving DecidableEq, Repr

/-- State of the `LiveTriage` component: the mutable refs and the React state
hooks of src/unnamed/part_000 lines 67-93.  Platform handles (audio context,
script processor, media stream, remote session, timer id) are modelled by a
`Bool` recording whether the ref currently holds a live resource. -/
structure SessionState where
  active : Bool
  inputSource : Bool
  processor : Bool
  audioContext : Bool
  frameInterval : Bool
  mediaTracks : Bool
  session : Bool
  isConnected : Bool
  isStreaming : Bool
  audioAnalyser : Bool
  triageStatus : Option TriageStatusModel
  isCPRMode : Bool
  nextStartTime : ℚ
  transcription : String
  error : Option String
  userLocation : String
deriving DecidableEq, Repr

/-- Observable effects of a callback: outbound channel sends and local
playback scheduling. -/
inductive OutEvent where
  | realtimeAudio (chunk : List ℚ)
  | realtimeFrame
  | toolResponse (functionResponses : List ToolResponseItem)
  | playback (start dur : ℚ)
deriving DecidableEq, Repr

/-- Teardown routine `stopSession` (src/unnamed/part_000 lines 153-203):
flips the active flag, disconnects and clears the capture graph refs, closes
and clears the audio context, cancels the frame timer, stops the media
tracks, closes the remote session (best effort, errors swallowed), and
resets the connection and streaming flags, the analyser, the displayed
status and the CPR mode.  It touches no other field. -/
def stopSession (s : SessionState) : SessionState :=
  { s with
    active := false
    inputSource := false
    processor := false
    audioContext := false
    frameInterval := false
    mediaTracks := false
    session := false
    isConnected := false
    isStreaming := false
    audioAnalyser := false
    triageStatus := none
    isCPRMode := false }

/-- Synchronous prefix of `startSession` (src/unnamed/part_000 lines
205-208): clear the error, run the full teardown, then raise the active
flag.  Everything after this point is an asynchronous continuation. -/
def startSessionSync (s : SessionState) : SessionState :=
  { stopSession { s with error := none } with active := true }

/-- A state holding no acquired devices, audio contexts, timers, capture
nodes or remote session. -/
def resourcesFree (s : SessionState) : Prop :=
  s.mediaTracks = false ∧ s.audioContext = false ∧ s.frameInterval = false ∧
  s.inputSource = false ∧ s.processor = false ∧ s.session = false

/-- Continuation of `startSession` after `getUserMedia` resolves, up to the
`await audioCtx.resume()` suspension (src/unnamed/part_000 lines 218-231):
if the session was stopped while the request was in flight, the
just-acquired tracks are stopped and nothing is retained; otherwise the
stream is installed as the video source and a fresh audio context is
created — still only a local variable, not yet stored in any ref — before
the resume await suspends. -/
def deviceReady (s : SessionState) : SessionState :=
  if s.active then { s with mediaTracks := true } else s

/-- Continuation of `startSession` after `await audioCtx.resume()` returns
(src/unnamed/part_000 lines 232-320): with no re-check of the active flag,
it stores the context in `audioContextRef` (line 232), creates and
publishes the analyser (lines 235-237), initiates the remote connection
(lines 242-278; its own callbacks are modelled separately), and installs
the capture source and script-processor nodes in their refs
(lines 294-320). -/
def audioSetupResumed (s : SessionState) : SessionState :=
  { s with audioContext := true, audioAnalyser := true
           inputSource := true, processor := true }

/-- The `onopen` callback (src/unnamed/part_000 lines 252-258). -/
def onopen (s : SessionState) : SessionState :=
  if s.active then { s with isConnected := true, isStreaming := true } else s

/-- Resolution of the connect promise (src/unnamed/part_000 lines 280-285):
the session handle is retained only when still active, otherwise it is
closed immediately. -/
def connectResolved (s : SessionState) : SessionState :=
  if s.active then { s with session := true } else s

/-- Model of JavaScript `String.prototype.startsWith` on character lists:
`startsWithL s p` holds when `p` is an initial segment of `s`. -/
def startsWithL : List Char → List Char → Bool
  | _, [] => true
  | [], _ :: _ => false
  | c :: cs, p :: ps => c == p && startsWithL cs ps

/-- Model of JavaScript `String.prototype.includes` on character lists:
`hasSub s p` holds when `p` occurs contiguously inside `s`. -/
def hasSub : List Char → List Char → Bool
  | [], p => startsWithL [] p
  | c :: cs, p => startsWithL (c :: cs) p || hasSub cs p

/-- Model of JavaScript `String.prototype.toLowerCase` (the source only ever
compares ASCII keywords, where `Char.toLower` agrees with it). -/
def jsToLower (s : String) : String := ⟨s.data.map Char.toLower⟩

/-- Model of JavaScript `String.prototype.includes` on strings. -/
def jsIncludes (s pat : String) : Bool := hasSub s.data pat.data

/-- The fixed keyword set of the CPR trigger check
(src/unnamed/part_000 line 424). -/
def cprKeywords : List String := ["cpr", "chest compression", "resuscitation"]

/-- The CPR trigger check of src/unnamed/part_000 lines 423-424: lower-case
the free text and look for any of the registered keywords as substrings. -/
def checkCprKeywords (action : String) : Bool :=
  let actionText := jsToLower action
  jsIncludes actionText "cpr" || jsIncludes actionText "chest compression" ||
    jsIncludes actionText "resuscitation"

/-- Spec-side reading of the trigger condition: the free text contains,
case-insensitively as a substring, some keyword of the registered set. -/
def ContainsRegisteredKeyword (a : String) : Prop :=
  ∃ k ∈ cprKeywords, hasSub (jsToLower a).data k.data = true

/-- Dispatch of one tool invocation, the loop body of
src/unnamed/part_000 lines 403-434.  A call whose name is not
`updateTriageStatus` is ignored.  For a matching call the status record is
published first (line 420); then `fc.args.immediateAction.toLowerCase()`
(line 423) raises a TypeError when the field is missing — modelled as
`Except.error` carrying the state mutated so far; otherwise the keyword
check may raise CPR mode and a response triple is produced. -/
def processCall (s : SessionState) (fc : FunctionCall) :
    SessionState × Except Unit (Option ToolResponseItem) :=
  if fc.name = "updateTriageStatus" then
    let s1 := { s with triageStatus := some (mkStatus fc.args) }
    match fc.args.immediateAction with
    | none => (s1, Except.error ())
    | some a =>
      let s2 := if checkCprKeywords a then { s1 with isCPRMode := true } else s1
      (s2, Except.ok (some { id := fc.id, name := fc.name, response := "Status updated." }))
  else (s, Except.ok none)

/-- The `for (const fc of message.toolCall.functionCalls)` loop of
src/unnamed/part_000 lines 402-434, accumulating the `responses` array.
A raised exception aborts the rest of the loop and propagates. -/
def processBatch : SessionState → List FunctionCall →
    SessionState × Except Unit (List ToolResponseItem)
  | s, [] => (s, Except.ok [])
  | s, fc :: rest =>
    match processCall s fc with
    | (s1, Except.error e) => (s1, Except.error e)
    | (s1, Except.ok none) => processBatch s1 rest
    | (s1, Except.ok (some r)) =>
      match processBatch s1 rest with
      | (s2, Except.error e) => (s2, Except.error e)
      | (s2, Except.ok rs) => (s2, Except.ok (r :: rs))

/-- An inbound message from the remote service, as consumed by
`handleServerMessage`.  The audio part carries the outcome of its own
(awaited) decode: `some none` is a chunk whose decode raises, `some (some d)`
a chunk decoding to a buffer of duration `d` on the audio clock. -/
structure ServerMessage where
  audioData : Option (Option ℚ)
  toolCall : Option (List FunctionCall)
  inputTranscription : Option String
  outputTranscription : Option String

/-- A message carrying only an audio chunk. -/
def audioOnlyMsg (d : Option ℚ) : ServerMessage :=
  { audioData := some d, toolCall := none
    inputTranscription := none, outputTranscription := none }

/-- A message carrying only a tool-call batch. -/
def toolOnlyMsg (fcs : List FunctionCall) : ServerMessage :=
  { audioData := none, toolCall := some fcs
    inputTranscription := none, outputTranscription := none }

/-- Transcription updates of src/unnamed/part_000 lines 440-445 (JavaScript
truthiness: an empty text is skipped; an output fragment overwrites an input
fragment delivered in the same message). -/
def applyTranscripts (s : SessionState) (m : ServerMessage) : SessionState :=
  let s1 :=
    match m.inputTranscription with
    | some t => if t.isEmpty then s else { s with transcription := "You: " ++ t }
    | none => s
  match m.outputTranscription with
  | some t => if t.isEmpty then s1 else { s1 with transcription := "LifeLine: " ++ t }
  | none => s1

/-- Body of `handleServerMessage` (src/unnamed/part_000 lines 386-449),
taking the state at the point the body actually runs and the audio clock
reading `clock = audioCtx.currentTime`.  The whole body is wrapped in a
try/catch whose handler only logs: a decode failure drops the message, and
an exception inside the tool-call loop stops the batch and skips the
transcription updates, but prior effects (the status already published, an
audio segment already scheduled) remain. -/
def handleServerMessage (s : SessionState) (clock : ℚ) (m : ServerMessage) :
    SessionState × List OutEvent :=
  match m.audioData with
  | some none => (s, [])
  | audioPart =>
    let afterAudio :=
      match audioPart with
      | some (some dur) =>
        let startTime := max s.nextStartTime clock
        ({ s with nextStartTime := startTime + dur },
          [OutEvent.playback startTime dur])
      | _ => (s, [])
    match m.toolCall with
    | none => (applyTranscripts afterAudio.1 m, afterAudio.2)
    | some fcs =>
      match processBatch afterAudio.1 fcs with
      | (s2, Except.error _) => (s2, afterAudio.2)
      | (s2, Except.ok rs) =>
        let evs :=
          if !rs.isEmpty && s2.session && s2.active then
            afterAudio.2 ++ [OutEvent.toolResponse rs]
          else afterAudio.2
        (applyTranscripts s2 m, evs)

/-- The `onmessage` callback (src/unnamed/part_000 lines 259-262): the
active flag is checked once, at entry, before the body is entered. -/
def onmessage (s : SessionState) (clock : ℚ) (m : ServerMessage) :
    SessionState × List OutEvent :=
  if s.active then handleServerMessage s clock m else (s, [])

/-- Service input sample rate (the target of `downsampleTo16k`),
`AUDIO_INPUT_SAMPLE_RATE` from `utils/audio`. -/
def AUDIO_INPUT_SAMPLE_RATE : Nat := 16000

/-- Playback sample rate requested for the local audio context,
`AUDIO_OUTPUT_SAMPLE_RATE` from `utils/audio`. -/
def AUDIO_OUTPUT_SAMPLE_RATE : Nat := 24000

/-- Modelled from the spec: the repository imports `downsampleTo16k` from
`../utils/audio`, a module that is not among the provided source files; only
its call sites (src/unnamed/part_000 lines 300-302) are.  Per spec section
4.2 it resamples linearly from the native rate to the required input rate,
deterministically, with output length `floor(len * target / source)`.
Samples are rationals; `getD` past the end reads as silence. -/
def downsampleTo16k (input : List ℚ) (sourceSampleRate : Nat) : List ℚ :=
  let outLen := input.length * AUDIO_INPUT_SAMPLE_RATE / sourceSampleRate
  (List.range outLen).map (fun i =>
    let idx : Nat := i * sourceSampleRate / AUDIO_INPUT_SAMPLE_RATE
    let pos : ℚ := (i * sourceSampleRate : Nat) / (AUDIO_INPUT_SAMPLE_RATE : ℚ)
    let frac : ℚ := pos - idx
    (1 - frac) * input.getD idx 0 + frac * input.getD (idx + 1) 0)

/-- The `onaudioprocess` capture callback (src/unnamed/part_000 lines
297-313) up to its suspension point: it checks the active flag, then
downsamples the window into a transmission-ready chunk handed to the
connect-promise continuation; when inactive it produces nothing. -/
def onaudioprocess (s : SessionState) (inputData : List ℚ) (sampleRate : Nat) :
    Option (List ℚ) :=
  if s.active then some (downsampleTo16k inputData sampleRate) else none

/-- The per-chunk send continuation inside `sessionPromise.then`
(src/unnamed/part_000 lines 304-312): the active flag is re-checked before
the send; send errors are swallowed. -/
def audioChunkSend (s : SessionState) (chunk : List ℚ) : List OutEvent :=
  if s.active then [OutEvent.realtimeAudio chunk] else []

/-- State read by one tick of the video frame sampler
(src/unnamed/part_000 lines 341-377): the refs it dereferences, the active
flag, the current frame dimensions, and — as environment bookkeeping, not a
program variable — the number of capture/encode pipelines (the `toBlob` →
base64 → send chains) currently in flight. -/
structure FrameTickState where
  hasVideo : Bool
  hasCanvas : Bool
  canvasCtx : Bool
  session : Bool
  active : Bool
  videoWidth : Nat
  videoHeight : Nat
  pendingEncodes : Nat
deriving DecidableEq, Repr

/-- One tick of the frame sampler, `captureAndSendFrame`
(src/unnamed/part_000 lines 341-377): it returns early when a ref is null,
the session handle is absent, the active flag is down, the 2d context is
unavailable, or the frame has no dimensions; otherwise it draws the scaled
frame and starts an encode (`canvas.toBlob`), recorded by incrementing
`pendingEncodes`.  The source consults no in-flight counter. -/
def captureAndSendFrame (f : FrameTickState) : FrameTickState :=
  if f.hasVideo && f.hasCanvas && f.session && f.active then
    if f.canvasCtx then
      if 0 < f.videoWidth ∧ 0 < f.videoHeight then
        { f with pendingEncodes := f.pendingEncodes + 1 }
      else f
    else f
  else f

/-- The conditions under which a sampler tick proceeds to start an encode. -/
def tickRuns (f : FrameTickState) : Prop :=
  f.hasVideo = true ∧ f.hasCanvas = true ∧ f.session = true ∧ f.active = true ∧
  f.canvasCtx = true ∧ 0 < f.videoWidth ∧ 0 < f.videoHeight

/-- The send tail of an encode pipeline, the `toBlob` callback after its
base64 await (src/unnamed/part_000 lines 362-374): the send goes through the
session ref; after a stop the ref is null, the resulting TypeError is
swallowed by the surrounding catch, and nothing is sent. -/
def frameSendPhase (f : FrameTickState) : List OutEvent :=
  if f.session then [OutEvent.realtimeFrame] else []

/-- Playback scheduling of a sequence of inbound chunks: each list element
is the pair (audio-clock reading when the chunk is processed, decoded
duration).  Per chunk this is exactly src/unnamed/part_000 lines 395-398:
`startTime = max(cursor, clock)`, schedule at `startTime`, advance the
cursor to `startTime + duration`.  Returns the final cursor and the list of
scheduled (start, duration) segments. -/
def runChunks : ℚ → List (ℚ × ℚ) → ℚ × List (ℚ × ℚ)
  | cursor, [] => (cursor, [])
  | cursor, (clock, dur) :: rest =>
    let startTime := max cursor clock
    let r := runChunks (startTime + dur) rest
    (r.1, (startTime, dur) :: r.2)

theorem runChunks_cons (c clock dur : ℚ) (rest : List (ℚ × ℚ)) :
    runChunks c ((clock, dur) :: rest) =
      ((runChunks (max c clock + dur) rest).1,
        (max c clock, dur) :: (runChunks (max c clock + dur) rest).2) := rfl

theorem runChunks_start_ge (l : List (ℚ × ℚ)) :
    ∀ c : ℚ, (∀ p ∈ l, 0 ≤ p.2) → ∀ q ∈ (runChunks c l).2, c ≤ q.1 := by
  induction l with
  | nil => intro c _ q hq; simp [runChunks] at hq
  | cons hd tl ih =>
    intro c h q hq
    obtain ⟨clock, dur⟩ := hd
    have hdur : 0 ≤ dur := h (clock, dur) (List.mem_cons_self _ _)
    have htl : ∀ p ∈ tl, 0 ≤ p.2 := fun p hp => h p (List.mem_cons_of_mem _ hp)
    rw [runChunks_cons] at hq
    rcases List.mem_cons.mp hq with rfl | h2
    · exact le_max_left _ _
    · have h3 := ih (max c clock + dur) htl q h2
      have h4 : c ≤ max c clock := le_max_left _ _
      linarith

theorem runChunks_cursor_le (l : List (ℚ × ℚ)) :
    ∀ c : ℚ, (∀ p ∈ l, 0 ≤ p.2) → c ≤ (runChunks c l).1 := by
  induction l with
  | nil => intro c _; simp [runChunks]
  | cons hd tl ih =>
    intro c h
    obtain ⟨clock, dur⟩ := hd
    have hdur : 0 ≤ dur := h (clock, dur) (List.mem_cons_self _ _)
    have htl : ∀ p ∈ tl, 0 ≤ p.2 := fun p hp => h p (List.mem_cons_of_mem _ hp)
    rw [runChunks_cons]
    have h2 := ih (max c clock + dur) htl
    have h4 : c ≤ max c clock := le_max_left _ _
    simp only []
    linarith

theorem runChunks_sched_pairwise (l : List (ℚ × ℚ)) :
    ∀ c : ℚ, (∀ p ∈ l, 0 ≤ p.2) →
      List.Pairwise (fun a b : ℚ × ℚ => a.1 + a.2 ≤ b.1) (runChunks c l).2 := by
  induction l with
  | nil => intro c _; simp [runChunks]
  | cons hd tl ih =>
    intro c h
    obtain ⟨clock, dur⟩ := hd
    have htl : ∀ p ∈ tl, 0 ≤ p.2 := fun p hp => h p (List.mem_cons_of_mem _ hp)
    rw [runChunks_cons]
    refine List.Pairwise.cons ?_ (ih (max c clock + dur) htl)
    intro q hq
    exact runChunks_start_ge tl (max c clock + dur) htl q hq

/-- C1: for every inbound audio chunk the scheduler computes the start time
as `max(nextStartTime, currentClockTime)`, schedules the segment there, and
advances the cursor by the duration (first conjunct, the per-chunk handler
body); for any arrival timing, scheduled intervals never overlap and the
cursor is non-decreasing (second conjunct); and the concrete scenario holds:
a 0.5 s chunk at clock `T` sets the cursor to `T + 0.5`, and a 0.3 s chunk
processed at clock `T + 0.2` is scheduled at `T + 0.5`, not `T + 0.2`,
leaving the cursor at `T + 0.8` (third conjunct). -/
theorem audio_scheduler_gapless :
    (∀ (s : SessionState) (clock dur : ℚ),
      handleServerMessage s clock (audioOnlyMsg (some dur)) =
        ({ s with nextStartTime := max s.nextStartTime clock + dur },
          [OutEvent.playback (max s.nextStartTime clock) dur])) ∧
    (∀ (c : ℚ) (l : List (ℚ × ℚ)), (∀ p ∈ l, 0 ≤ p.2) →
      List.Pairwise (fun a b : ℚ × ℚ => a.1 + a.2 ≤ b.1) (runChunks c l).2 ∧
      c ≤ (runChunks c l).1) ∧
    (∀ (T c : ℚ), c ≤ T →
      runChunks c [(T, 1/2), (T + 1/5, 3/10)] =
        (T + 4/5, [(T, 1/2), (T + 1/2, 3/10)])) := by
  refine ⟨fun s clock dur => rfl, fun c l h => ⟨runChunks_sched_pairwise l c h, runChunks_cursor_le l c h⟩, ?_⟩
  intro T c h
  have h2 : T + 1/5 ≤ T + 1/2 := by linarith
  have h3 : T + 1/2 + 3/10 = T + 4/5 := by ring
  rw [runChunks_cons, max_eq_right h, runChunks_cons, max_eq_left h2]
  simp only [runChunks]
  rw [h3]

/-- Witness for C1 at cursor 0, a 0.5 s chunk at clock 0 and a 0.3 s chunk
at clock 0.2. -/
theorem audio_scheduler_gapless_witness :
    List.Pairwise (fun a b : ℚ × ℚ => a.1 + a.2 ≤ b.1)
      (runChunks 0 [((0 : ℚ), 1/2), (1/5, 3/10)]).2 ∧
    (0 : ℚ) ≤ (runChunks 0 [((0 : ℚ), 1/2), (1/5, 3/10)]).1 ∧
    runChunks 0 [((0 : ℚ), 1/2), ((0 : ℚ) + 1/5, 3/10)] =
      ((0 : ℚ) + 4/5, [((0 : ℚ), 1/2), ((0 : ℚ) + 1/2, 3/10)]) :=
  ⟨(audio_scheduler_gapless.2.1 0 _ (by norm_num)).1,
   (audio_scheduler_gapless.2.1 0 [((0 : ℚ), 1/2), (1/5, 3/10)] (by norm_num)).2,
   audio_scheduler_gapless.2.2 0 0 le_rfl⟩

/-- A fully set-up running session, as reached after a successful
`startSession` with cursor at 0. -/
def sampleRunningState : SessionState :=
  { active := true, inputSource := true, processor := true
    audioContext := true, frameInterval := true, mediaTracks := true
    session := true, isConnected := true, isStreaming := true
    audioAnalyser := true, triageStatus := none, isCPRMode := false
    nextStartTime := 0, transcription := "", error := none
    userLocation := "Unknown" }

/-- Counterexample to C2 as stated: a `stopSession` that lands while
`startSession` is suspended in `await audioCtx.resume()` does not leave
zero acquired contexts.  The post-stop state is resource-free for a moment,
but the orphaned post-resume continuation then runs with no flag re-check
and re-installs a live audio context, analyser and capture nodes; since
`audioContextRef` was null when the stop ran, nothing ever closes this
context. -/
theorem stop_midconnect_counterexample :
    (stopSession sampleRunningState).active = false ∧
    (audioSetupResumed (stopSession sampleRunningState)).audioContext = true ∧
    (audioSetupResumed (stopSession sampleRunningState)).inputSource = true ∧
    (audioSetupResumed (stopSession sampleRunningState)).processor = true ∧
    ¬ resourcesFree (audioSetupResumed (stopSession sampleRunningState)) := by
  refine ⟨rfl, rfl, rfl, rfl, ?_⟩
  intro h
  exact absurd h.2.1 (by simp [audioSetupResumed])

/-- C2 (amended): `stopSession` itself, from any state, leaves zero
acquired devices, audio contexts and timers at the moment it returns; a
second `stopSession` applied to the post-stop state is a no-op reaching the
same resource-free state; and the device-ready (pre-resume) and
connect-resolution continuations of an interrupted `startSession`, running
after the stop, retain nothing.  But a stop landing inside the
`await audioCtx.resume()` window does not end resource-free: the unguarded
post-resume continuation re-installs a live audio context, analyser and
capture nodes (fifth and sixth conjuncts), which only a further explicit
stop — which nothing in the program triggers — would release (last
conjunct). -/
theorem stopSession_idempotent_teardown : ∀ s : SessionState,
    resourcesFree (stopSession s) ∧
    stopSession (stopSession s) = stopSession s ∧
    deviceReady (stopSession s) = stopSession s ∧
    connectResolved (stopSession s) = stopSession s ∧
    (audioSetupResumed (stopSession s)).audioContext = true ∧
    ¬ resourcesFree (audioSetupResumed (stopSession s)) ∧
    stopSession (audioSetupResumed (stopSession s)) = stopSession s := by
  intro s
  refine ⟨⟨rfl, rfl, rfl, rfl, rfl, rfl⟩, rfl, rfl, rfl, rfl, ?_, rfl⟩
  intro h
  exact absurd h.2.1 (by simp [audioSetupResumed])

/-- C10: `stopSession` resets the connection and streaming flags, the
displayed triage status and the CPR mode, and releases the media resources,
but leaves the playback cursor, the last transcript fragment and the last
error message exactly as they were; and the synchronous prefix of a
following `startSession` still carries the previous cursor rather than a
fresh cursor of 0. -/
theorem stopSession_frame_effect : ∀ s : SessionState,
    (stopSession s).isConnected = false ∧
    (stopSession s).isStreaming = false ∧
    (stopSession s).triageStatus = none ∧
    (stopSession s).isCPRMode = false ∧
    resourcesFree (stopSession s) ∧
    (stopSession s).nextStartTime = s.nextStartTime ∧
    (stopSession s).transcription = s.transcription ∧
    (stopSession s).error = s.error ∧
    (startSessionSync (stopSession s)).nextStartTime = s.nextStartTime := by
  intro s
  exact ⟨rfl, rfl, rfl, rfl, ⟨rfl, rfl, rfl, rfl, rfl, rfl⟩, rfl, rfl, rfl, rfl⟩

/-- C3 (amended): the device-ready (pre-resume), connection-open,
connect-resolution, per-chunk audio-send and inbound-message callbacks all
check the active flag at entry and have no effect when it is down; a
frame-sampler tick checks it too, and the send tail of a frame encode is
suppressed after a stop because the session handle has been nulled.  But
two continuations run with no flag re-check after their awaits: the
audio-setup continuation resuming after `await audioCtx.resume()` installs
the audio context, analyser and capture nodes whatever the flag says
(ninth conjunct, unconditional in `s`), and the message handler's
post-decode continuation schedules playback and advances the cursor
whatever the flag says (last conjunct, unconditional in `s.active`). -/
theorem active_flag_guards :
    (∀ s : SessionState, s.active = false → onopen s = s) ∧
    (∀ s : SessionState, s.active = false → deviceReady s = s) ∧
    (∀ s : SessionState, s.active = false → connectResolved s = s) ∧
    (∀ (s : SessionState) (inputData : List ℚ) (rate : Nat),
      s.active = false → onaudioprocess s inputData rate = none) ∧
    (∀ (s : SessionState) (chunk : List ℚ),
      s.active = false → audioChunkSend s chunk = []) ∧
    (∀ (s : SessionState) (clock : ℚ) (m : ServerMessage),
      s.active = false → onmessage s clock m = (s, [])) ∧
    (∀ f : FrameTickState, f.active = false → captureAndSendFrame f = f) ∧
    (∀ f : FrameTickState, f.session = false → frameSendPhase f = []) ∧
    (∀ s : SessionState, audioSetupResumed s =
      { s with audioContext := true, audioAnalyser := true
               inputSource := true, processor := true }) ∧
    (∀ (s : SessionState) (clock dur : ℚ),
      (handleServerMessage s clock (audioOnlyMsg (some dur))).1.nextStartTime =
        max s.nextStartTime clock + dur) := by
  refine ⟨?_, ?_, ?_, ?_, ?_, ?_, ?_, ?_, ?_, ?_⟩
  · intro s h; simp [onopen, h]
  · intro s h; simp [deviceReady, h]
  · intro s h; simp [connectResolved, h]
  · intro s inputData rate h; simp [onaudioprocess, h]
  · intro s chunk h; simp [audioChunkSend, h]
  · intro s clock m h; simp [onmessage, h]
  · intro f h; simp [captureAndSendFrame, h]
  · intro f h; simp [frameSendPhase, h]
  · intro s; rfl
  · intro s clock dur; rfl

/-- Witness for C3 (amended) on the state just after a stop: the inbound
message callback, entered with the flag down, leaves the state unchanged
and produces nothing. -/
theorem active_flag_guards_witness :
    (stopSession sampleRunningState).active = false ∧
    onmessage (stopSession sampleRunningState) 2 (audioOnlyMsg (some 1)) =
      (stopSession sampleRunningState, []) :=
  ⟨rfl, active_flag_guards.2.2.2.2.2.1 (stopSession sampleRunningState) 2
    (audioOnlyMsg (some 1)) rfl⟩

/-- Counterexample to C3 as stated: let `stopSession` run while a chunk of
duration 1 is being decoded (the message handler passed its entry check
before the stop).  The post-decode continuation, resumed on the post-stop
state with the active flag down, still schedules playback at clock time 2
and advances the cursor from 0 to 3 — a send-side effect and a state
mutation produced by a continuation scheduled before the stop, with no
further flag check. -/
theorem active_flag_counterexample :
    (stopSession sampleRunningState).active = false ∧
    (stopSession sampleRunningState).nextStartTime = 0 ∧
    (handleServerMessage (stopSession sampleRunningState) 2
        (audioOnlyMsg (some 1))).2 = [OutEvent.playback 2 1] ∧
    (handleServerMessage (stopSession sampleRunningState) 2
        (audioOnlyMsg (some 1))).1.nextStartTime = 3 := by
  have hmax : max (0 : ℚ) 2 = 2 := max_eq_right (by norm_num)
  refine ⟨rfl, rfl, ?_, ?_⟩
  · show [OutEvent.playback (max (0 : ℚ) 2) 1] = [OutEvent.playback 2 1]
    rw [hmax]
  · show max (0 : ℚ) 2 + 1 = 3
    rw [hmax]; norm_num

theorem processCall_shape (s : SessionState) (fc : FunctionCall) :
    (processCall s fc).1.session = s.session ∧
    (processCall s fc).1.active = s.active ∧
    (fc.name = "updateTriageStatus" → ∀ a, fc.args.immediateAction = some a →
      (processCall s fc).2 = Except.ok (some
        { id := fc.id, name := fc.name, response := "Status updated." })) ∧
    (fc.name = "updateTriageStatus" → fc.args.immediateAction = none →
      (processCall s fc).2 = Except.error ()) ∧
    (¬fc.name = "updateTriageStatus" → processCall s fc = (s, Except.ok none)) := by
  by_cases hn : fc.name = "updateTriageStatus"
  · rcases ho : fc.args.immediateAction with _ | a
    · simp [processCall, hn, ho]
    · by_cases hk : checkCprKeywords a <;> simp [processCall, hn, ho, hk]
  · simp [processCall, hn]

theorem processBatch_wf (fcs : List FunctionCall) :
    ∀ s : SessionState,
      (∀ fc ∈ fcs, fc.name = "updateTriageStatus" → fc.args.immediateAction ≠ none) →
      (processBatch s fcs).2 = Except.ok
        ((fcs.filter (fun fc => fc.name == "updateTriageStatus")).map
          (fun fc => ({ id := fc.id, name := fc.name, response := "Status updated." } :
            ToolResponseItem))) ∧
      (processBatch s fcs).1.session = s.session ∧
      (processBatch s fcs).1.active = s.active := by
  induction fcs with
  | nil => intro s _; exact ⟨rfl, rfl, rfl⟩
  | cons fc rest ih =>
    intro s h
    have hfc := h fc (List.mem_cons_self _ _)
    have hrest : ∀ p ∈ rest, p.name = "updateTriageStatus" → p.args.immediateAction ≠ none :=
      fun p hp => h p (List.mem_cons_of_mem _ hp)
    have shape := processCall_shape s fc
    rcases hq : processCall s fc with ⟨sMid, r⟩
    rw [hq] at shape
    dsimp only at shape
    obtain ⟨hsess, hact, hsome, _, hnone⟩ := shape
    by_cases hn : fc.name = "updateTriageStatus"
    · rcases ho : fc.args.immediateAction with _ | a
      · exact absurd ho (hfc hn)
      · have hr : r = Except.ok (some
            { id := fc.id, name := fc.name, response := "Status updated." }) := hsome hn a ho
        subst hr
        have ihm := ih sMid hrest
        rcases hp : processBatch sMid rest with ⟨s2, r2⟩
        rw [hp] at ihm
        dsimp only at ihm
        obtain ⟨h1, h2, h3⟩ := ihm
        subst h1
        simp [processBatch, hq, hp, List.filter_cons, hn, h2, h3, hsess, hact]
    · have hpair : (sMid, r) = (s, Except.ok none) := hq ▸ hnone hn
      have hs1 : sMid = s := congrArg Prod.fst hpair
      have hr1 : r = Except.ok none := congrArg Prod.snd hpair
      have hne : (fc.name == "updateTriageStatus") = false := by simpa using hn
      have ihm := ih s hrest
      simp only [processBatch, hq, hs1, hr1, List.filter_cons, hne]
      simpa using ihm

/-- A complete, well-formed argument record for `updateTriageStatus`. -/
def fullArgs (c : String) : ToolArgs :=
  { condition := some c, riskLevel := some "LOW"
    immediateAction := some "Rest and hydrate."
    hospitalUrgency := some "STAY_HOME", department := some "General"
    contraindications := some "Avoid strenuous activity."
    reasoning := some "Mild symptoms.", recommendedHospital := none }

/-- A well-formed matched invocation. -/
def goodCall (i c : String) : FunctionCall :=
  { id := i, name := "updateTriageStatus", args := fullArgs c }

/-- Arguments with the declared-required `immediateAction` field missing. -/
def missingActionArgs : ToolArgs := { fullArgs "Fainting" with immediateAction := none }

/-- A matched invocation whose `immediateAction` argument is missing. -/
def badCall : FunctionCall :=
  { id := "2", name := "updateTriageStatus", args := missingActionArgs }

/-- Counterexample to C4 as stated: a batch with two matched invocations,
the second missing `immediateAction`, processed on an active session with a
live handle, sends zero outbound response messages — not exactly one — even
though at least one invocation matches a registered tool and the session is
still active. -/
theorem tool_batch_counterexample :
    sampleRunningState.active = true ∧
    sampleRunningState.session = true ∧
    ([goodCall "1" "Sprain", badCall].filter
      (fun fc => fc.name == "updateTriageStatus")).length = 2 ∧
    (handleServerMessage sampleRunningState 0
        (toolOnlyMsg [goodCall "1" "Sprain", badCall])).2 = [] := by
  exact ⟨rfl, rfl, by decide, rfl⟩

/-- C4 (amended): for every inbound tool-call batch whose matched
invocations each carry the `immediateAction` argument, if at least one
invocation matches the registered tool and the session is still active
(active flag up and handle present), exactly one outbound response message is
sent, containing one `{call id, name, result}` triple per matched
invocation, in batch order, with the ids copied from the invocations; a
batch producing zero results yields zero outbound response messages. -/
theorem tool_batch_single_response (s : SessionState) (fcs : List FunctionCall) (clock : ℚ)
    (hwf : ∀ fc ∈ fcs, fc.name = "updateTriageStatus" → fc.args.immediateAction ≠ none)
    (hsess : s.session = true) (hact : s.active = true) :
    ((fcs.filter (fun fc => fc.name == "updateTriageStatus")) ≠ [] →
      (handleServerMessage s clock (toolOnlyMsg fcs)).2 =
        [OutEvent.toolResponse ((fcs.filter (fun fc => fc.name == "updateTriageStatus")).map
          (fun fc => { id := fc.id, name := fc.name, response := "Status updated." }))]) ∧
    ((fcs.filter (fun fc => fc.name == "updateTriageStatus")) = [] →
      (handleServerMessage s clock (toolOnlyMsg fcs)).2 = []) := by
  obtain ⟨hres, hsess2, hact2⟩ := processBatch_wf fcs s hwf
  rcases hp : processBatch s fcs with ⟨s2, r⟩
  rw [hp] at hres hsess2 hact2
  dsimp only at hres hsess2 hact2
  subst hres
  constructor
  · intro hne
    have hempty : ((fcs.filter (fun fc => fc.name == "updateTriageStatus")).map
        (fun fc => ({ id := fc.id, name := fc.name, response := "Status updated." } :
          ToolResponseItem))).isEmpty = false := by
      cases hfl : fcs.filter (fun fc => fc.name == "updateTriageStatus") with
      | nil => exact absurd hfl hne
      | cons a l => simp
    simp [handleServerMessage, toolOnlyMsg, hp, hempty, hsess2, hact2, hsess, hact]
  · intro hnil
    simp [handleServerMessage, toolOnlyMsg, hp, hnil]

/-- Witness for C4 (amended): a batch of two well-formed matched invocations
on a running session produces exactly one outbound message with the two
correlated triples. -/
theorem tool_batch_single_response_witness :
    (handleServerMessage sampleRunningState 0
        (toolOnlyMsg [goodCall "1" "Sprain", goodCall "4" "Headache"])).2 =
      [OutEvent.toolResponse
        [{ id := "1", name := "updateTriageStatus", response := "Status updated." },
         { id := "4", name := "updateTriageStatus", response := "Status updated." }]] := by
  have h := (tool_batch_single_response sampleRunningState
      [goodCall "1" "Sprain", goodCall "4" "Headache"] 0
      (by decide) rfl rfl).1 (by decide)
  exact h.trans (by decide)

theorem processBatch_bad (pre : List FunctionCall) :
    ∀ (s : SessionState) (post : List FunctionCall) (bad : FunctionCall),
      (∀ fc ∈ pre, fc.name = "updateTriageStatus" → fc.args.immediateAction ≠ none) →
      bad.name = "updateTriageStatus" → bad.args.immediateAction = none →
      processBatch s (pre ++ bad :: post) =
        ((processBatch s (pre ++ [bad])).1, Except.error ()) := by
  induction pre with
  | nil =>
    intro s post bad _ hname hbad
    have shape := processCall_shape s bad
    rcases hq : processCall s bad with ⟨sMid, r⟩
    rw [hq] at shape
    dsimp only at shape
    obtain ⟨_, _, _, herr, _⟩ := shape
    have hr : r = Except.error () := herr hname hbad
    subst hr
    simp [processBatch, hq]
  | cons fc pre ih =>
    intro s post bad hpre hname hbad
    have hfc := hpre fc (List.mem_cons_self _ _)
    have hpre2 : ∀ p ∈ pre, p.name = "updateTriageStatus" → p.args.immediateAction ≠ none :=
      fun p hp => hpre p (List.mem_cons_of_mem _ hp)
    have shape := processCall_shape s fc
    rcases hq : processCall s fc with ⟨sMid, r⟩
    rw [hq] at shape
    dsimp only at shape
    obtain ⟨_, _, hsome, _, hnone⟩ := shape
    by_cases hn : fc.name = "updateTriageStatus"
    · rcases ho : fc.args.immediateAction with _ | a
      · exact absurd ho (hfc hn)
      · have hr : r = Except.ok (some
            { id := fc.id, name := fc.name, response := "Status updated." }) := hsome hn a ho
        subst hr
        have ihh := ih sMid post bad hpre2 hname hbad
        rcases hp2 : processBatch sMid (pre ++ [bad]) with ⟨s2, r2⟩
        rw [hp2] at ihh
        dsimp only at ihh
        cases r2 <;> simp [processBatch, hq, ihh, hp2]
    · have hpair : (sMid, r) = (s, Except.ok none) := hq ▸ hnone hn
      have hs1 : sMid = s := congrArg Prod.fst hpair
      have hr1 : r = Except.ok none := congrArg Prod.snd hpair
      subst hs1
      subst hr1
      have ihh := ih sMid post bad hpre2 hname hbad
      simp [processBatch, hq, ihh]

/-- Counterexample to C9 as stated: in the batch
`[good "1", bad "2", good "3"]` on a running session, where the second
matched invocation is missing the declared-required `immediateAction`
field, processing of the other invocations does not continue: the third
invocation is never dispatched (the final published status is the partial
record of the bad call, not the third call's), and no outbound response
message is sent at all, so no triple is emitted even for the first,
well-formed call. -/
theorem malformed_args_counterexample :
    (handleServerMessage sampleRunningState 0
        (toolOnlyMsg [goodCall "1" "Burn", badCall, goodCall "3" "Cut"])).2 = [] ∧
    (handleServerMessage sampleRunningState 0
        (toolOnlyMsg [goodCall "1" "Burn", badCall, goodCall "3" "Cut"])).1.triageStatus =
      some (mkStatus missingActionArgs) ∧
    mkStatus missingActionArgs ≠ mkStatus (fullArgs "Cut") := by
  exact ⟨rfl, rfl, by decide⟩

/-- C9 (amended): a matched invocation with the declared-required
`immediateAction` field missing raises an error that is caught at the
message boundary — it is logged and never thrown across the session
boundary, and no response triple is emitted for that call — but the error
aborts the rest of the batch: the invocations after it are not processed,
and no outbound response message is sent for the whole batch, discarding
results already accumulated.  An invocation missing only other declared
required fields is not validated at all: it is processed normally and a
response triple is emitted for it (last conjunct). -/
theorem malformed_args_local (s : SessionState) (clock : ℚ) (pre post : List FunctionCall)
    (bad : FunctionCall)
    (hpre : ∀ fc ∈ pre, fc.name = "updateTriageStatus" → fc.args.immediateAction ≠ none)
    (hname : bad.name = "updateTriageStatus") (hbad : bad.args.immediateAction = none) :
    (handleServerMessage s clock (toolOnlyMsg (pre ++ bad :: post))).2 = [] ∧
    (handleServerMessage s clock (toolOnlyMsg (pre ++ bad :: post))).1 =
      (processBatch s (pre ++ [bad])).1 ∧
    (processCall s bad).2 = Except.error () ∧
    (∀ (fc : FunctionCall) (a : String), fc.name = "updateTriageStatus" →
      fc.args.immediateAction = some a →
      (processCall s fc).2 = Except.ok (some
        { id := fc.id, name := fc.name, response := "Status updated." })) := by
  have hb := processBatch_bad pre s post bad hpre hname hbad
  refine ⟨?_, ?_, ?_, ?_⟩
  · simp [handleServerMessage, toolOnlyMsg, hb]
  · simp [handleServerMessage, toolOnlyMsg, hb]
  · exact (processCall_shape s bad).2.2.2.1 hname hbad
  · intro fc a hn ho
    exact (processCall_shape s fc).2.2.1 hn a ho

/-- Witness for C9 (amended) on the concrete three-call batch. -/
theorem malformed_args_local_witness :
    (handleServerMessage sampleRunningState 0
        (toolOnlyMsg [goodCall "1" "Burn", badCall, goodCall "3" "Cut"])).1 =
      (processBatch sampleRunningState [goodCall "1" "Burn", badCall]).1 ∧
    (processCall sampleRunningState badCall).2 = Except.error () := by
  have h := malformed_args_local sampleRunningState 0 [goodCall "1" "Burn"]
    [goodCall "3" "Cut"] badCall (by decide) rfl rfl
  exact ⟨h.2.1, h.2.2.1⟩

theorem startsWithL_iff (p : List Char) :
    ∀ s : List Char, startsWithL s p = true ↔ ∃ r, s = p ++ r := by
  induction p with
  | nil =>
    intro s
    simp only [startsWithL, List.nil_append]
    exact ⟨fun _ => ⟨s, rfl⟩, fun _ => trivial⟩
  | cons b bs ih =>
    intro s
    cases s with
    | nil =>
      simp [startsWithL]
    | cons c cs =>
      simp only [startsWithL, Bool.and_eq_true, beq_iff_eq, ih, List.cons_append]
      constructor
      · rintro ⟨rfl, r, rfl⟩
        exact ⟨r, rfl⟩
      · rintro ⟨r, h⟩
        injection h with h1 h2
        exact ⟨h1, r, h2⟩

theorem hasSub_iff (p : List Char) :
    ∀ s : List Char, hasSub s p = true ↔ ∃ l r, s = l ++ p ++ r := by
  intro s
  induction s with
  | nil =>
    simp only [hasSub, startsWithL_iff]
    constructor
    · rintro ⟨r, h⟩
      exact ⟨[], r, h⟩
    · rintro ⟨l, r, h⟩
      cases l with
      | nil => exact ⟨r, h⟩
      | cons x xs => simp at h
  | cons c cs ih =>
    simp only [hasSub, Bool.or_eq_true, startsWithL_iff, ih]
    constructor
    · rintro (⟨r, h⟩ | ⟨l, r, h⟩)
      · exact ⟨[], r, by simpa using h⟩
      · exact ⟨c :: l, r, by simp [h]⟩
    · rintro ⟨l, r, h⟩
      cases l with
      | nil => exact Or.inl ⟨r, by simpa using h⟩
      | cons x xs =>
        injection h with h1 h2
        exact Or.inr ⟨xs, r, h2⟩

theorem hasSub_map (f : Char → Char) (s p : List Char) (h : hasSub s p = true) :
    hasSub (s.map f) (p.map f) = true := by
  obtain ⟨l, r, rfl⟩ := (hasSub_iff p s).mp h
  exact (hasSub_iff _ _).mpr ⟨l.map f, r.map f, by simp⟩

theorem hasSub_trans (s p q : List Char) (h1 : hasSub s p = true) (h2 : hasSub p q = true) :
    hasSub s q = true := by
  obtain ⟨l1, r1, rfl⟩ := (hasSub_iff p s).mp h1
  obtain ⟨l2, r2, rfl⟩ := (hasSub_iff q p).mp h2
  exact (hasSub_iff _ _).mpr ⟨l1 ++ l2, r2 ++ r1, by simp⟩

/-- C5: a dispatched `updateTriageStatus` invocation raises the CPR
intervention mode if and only if its free-text `immediateAction` contains,
case-insensitively as a substring, a keyword of the small fixed registered
set; in particular (second conjunct) any text containing the phrase
"start CPR" in any letter case raises it — and, by the reverse direction of
the iff, text containing no registered keyword does not. -/
theorem cpr_alert_iff (s : SessionState) (fc : FunctionCall) (a : String)
    (h0 : s.isCPRMode = false) (hn : fc.name = "updateTriageStatus")
    (ha : fc.args.immediateAction = some a) :
    ((processCall s fc).1.isCPRMode = true ↔ ContainsRegisteredKeyword a) ∧
    (∀ u : List Char, hasSub a.data u = true → u.map Char.toLower = "start cpr".data →
      (processCall s fc).1.isCPRMode = true) := by
  have hmode : (processCall s fc).1.isCPRMode = checkCprKeywords a := by
    by_cases hk : checkCprKeywords a <;> simp [processCall, hn, ha, hk, h0]
  have hiff : checkCprKeywords a = true ↔ ContainsRegisteredKeyword a := by
    simp only [checkCprKeywords, ContainsRegisteredKeyword, cprKeywords, jsIncludes,
      Bool.or_eq_true, List.mem_cons, List.not_mem_nil, or_false, exists_eq_or_imp,
      exists_eq_left]
    tauto
  refine ⟨hmode ▸ hiff, ?_⟩
  intro u hu hlow
  have h1 : hasSub (a.data.map Char.toLower) ("start cpr".data) = true := by
    have hm := hasSub_map Char.toLower a.data u hu
    rwa [hlow] at hm
  have h2 : hasSub ("start cpr".data) ("cpr".data) = true := by decide
  have h3 := hasSub_trans _ _ _ h1 h2
  rw [hmode]
  simp [checkCprKeywords, jsIncludes, jsToLower, h3]

/-- Witness for C5: the free text "Patient unresponsive. Start CPR
immediately." raises the intervention mode. -/
theorem cpr_alert_iff_witness :
    (processCall sampleRunningState
        { id := "9", name := "updateTriageStatus"
          args := { fullArgs "Cardiac arrest" with
            immediateAction := some "Patient unresponsive. Start CPR immediately." } }
      ).1.isCPRMode = true := by
  exact (cpr_alert_iff sampleRunningState _ "Patient unresponsive. Start CPR immediately."
    rfl rfl rfl).2 "Start CPR".data (by decide) (by decide)

/-- C6: for every input buffer and every valid source rate `R`, the
resampler output has exactly `floor(len * 16000 / R)` samples (stated both
with the real floor and with natural division, which coincide); it is a
pure function of its two arguments, hence deterministic. -/
theorem downsample_length (input : List ℚ) (R : Nat) (hR : 0 < R) :
    (downsampleTo16k input R).length =
      Nat.floor (((input.length * AUDIO_INPUT_SAMPLE_RATE : ℕ) : ℚ) / (R : ℚ)) ∧
    (downsampleTo16k input R).length = input.length * AUDIO_INPUT_SAMPLE_RATE / R := by
  have hlen : (downsampleTo16k input R).length =
      input.length * AUDIO_INPUT_SAMPLE_RATE / R := by
    simp [downsampleTo16k]
  exact ⟨by rw [hlen, Nat.floor_div_eq_div], hlen⟩

/-- Witness for C6: an 8-sample buffer at a 48 kHz source rate yields
`floor(8 * 16000 / 48000) = 2` samples. -/
theorem downsample_length_witness :
    0 < 48000 ∧
    (downsampleTo16k (List.replicate 8 (0 : ℚ)) 48000).length =
      (List.replicate 8 (0 : ℚ)).length * AUDIO_INPUT_SAMPLE_RATE / 48000 ∧
    (List.replicate 8 (0 : ℚ)).length * AUDIO_INPUT_SAMPLE_RATE / 48000 = 2 :=
  ⟨by decide, (downsample_length (List.replicate 8 0) 48000 (by decide)).2, by decide⟩

/-- A frame-sampler state with every guard satisfied and one encode still
in flight. -/
def busyFrameState : FrameTickState :=
  { hasVideo := true, hasCanvas := true, canvasCtx := true, session := true
    active := true, videoWidth := 640, videoHeight := 480, pendingEncodes := 1 }

/-- Counterexample to C7 as stated: a tick arriving while a prior
capture/encode is still pending (`pendingEncodes = 1`) does not skip — it
starts a second, overlapping encode, because the source checks only the
refs, the session handle, the active flag and the frame dimensions, and
consults no in-flight guard. -/
theorem frame_tick_counterexample :
    0 < busyFrameState.pendingEncodes ∧
    captureAndSendFrame busyFrameState ≠ busyFrameState ∧
    (captureAndSendFrame busyFrameState).pendingEncodes = 2 := by
  refine ⟨by decide, by decide, by decide⟩

/-- C7 (amended): each sampler tick skips entirely — leaving the state
unchanged — exactly when the video or canvas ref is null, the session
handle is absent, the active flag is down, the 2d context is unavailable,
or the frame has no dimensions; a tick starts at most one new encode and
never queues or buffers frames (third conjunct); but there is no
single-flight guard, so a tick during a pending encode starts an
overlapping one (first conjunct holds whatever `pendingEncodes` is). -/
theorem frame_tick_single_shot : ∀ f : FrameTickState,
    (tickRuns f → captureAndSendFrame f =
      { f with pendingEncodes := f.pendingEncodes + 1 }) ∧
    (¬ tickRuns f → captureAndSendFrame f = f) ∧
    (captureAndSendFrame f).pendingEncodes ≤ f.pendingEncodes + 1 := by
  intro f
  refine ⟨?_, ?_, ?_⟩
  · rintro ⟨h1, h2, h3, h4, h5, h6, h7⟩
    simp [captureAndSendFrame, h1, h2, h3, h4, h5, h6, h7]
  · intro h
    by_cases h1 : (f.hasVideo && f.hasCanvas && f.session && f.active) = true
    · by_cases h2 : f.canvasCtx = true
      · by_cases h3 : 0 < f.videoWidth ∧ 0 < f.videoHeight
        · exfalso
          apply h
          simp only [Bool.and_eq_true] at h1
          exact ⟨h1.1.1.1, h1.1.1.2, h1.1.2, h1.2, h2, h3.1, h3.2⟩
        · simp [captureAndSendFrame, h1, h2, h3]
      · simp [captureAndSendFrame, h1, h2]
    · simp [captureAndSendFrame, h1]
  · by_cases h1 : (f.hasVideo && f.hasCanvas && f.session && f.active) = true
    · by_cases h2 : f.canvasCtx = true
      · by_cases h3 : 0 < f.videoWidth ∧ 0 < f.videoHeight
        · simp [captureAndSendFrame, h1, h2, h3]
        · simp [captureAndSendFrame, h1, h2, h3, Nat.le_succ]
      · simp [captureAndSendFrame, h1, h2, Nat.le_succ]
    · simp [captureAndSendFrame, h1, Nat.le_succ]

/-- Witness for C7 (amended): on the busy state all guards hold, and the
tick starts one more encode. -/
theorem frame_tick_single_shot_witness :
    captureAndSendFrame busyFrameState =
      { busyFrameState with pendingEncodes := busyFrameState.pendingEncodes + 1 } :=
  (frame_tick_single_shot busyFrameState).1
    ⟨rfl, rfl, rfl, rfl, rfl, by decide, by decide⟩

/-- C8: a chunk whose decode fails is dropped — the handler returns with
the state (in particular the cursor `nextStartTime`) exactly unchanged, no
playback scheduled and nothing sent, and the session continues — and the
next successfully decoded chunk schedules exactly as it would have had the
failed chunk never arrived, relative to the last successfully scheduled
segment. -/
theorem decode_failure_drops_chunk : ∀ (s : SessionState) (clock : ℚ),
    handleServerMessage s clock (audioOnlyMsg none) = (s, []) ∧
    ∀ (clock2 dur : ℚ),
      handleServerMessage (handleServerMessage s clock (audioOnlyMsg none)).1 clock2
          (audioOnlyMsg (some dur)) =
        ({ s with nextStartTime := max s.nextStartTime clock2 + dur },
          [OutEvent.playback (max s.nextStartTime clock2) dur]) := by
  intro s clock
  exact ⟨rfl, fun clock2 dur => rfl⟩
